import Mathlib

/-!
Shallow embedding of `code-lines` (`src/lib.rs`): a utility that selects a
random line of source code of a chosen language from a local corpus.

Rust strings are embedded as Lean `String`; string primitives from the Rust
standard library (`str::contains`, `str::len`, `str::trim`) are given explicit
executable definitions over the underlying character list.  Process
environment access (`std::env::var`) is modelled by passing the environment as
an explicit function `String → Option String`; the glob expansion and the
random draw of `SliceRandom::choose` are likewise passed explicitly.
-/

namespace CodeLines

/-- `str::contains(c: char)`: whether character `c` occurs in `s`. -/
def containsChar (s : String) (c : Char) : Bool :=
  decide (c ∈ s.data)

/-- `str::contains(pat: &str)`: whether `pat` occurs in `s` as a contiguous
substring, i.e. `pat.data` is an infix of `s.data`. -/
def containsStr (s pat : String) : Bool :=
  decide (pat.data <:+: s.data)

/-- `str::len()`: the UTF-8 byte length of the string. -/
def strLen (s : String) : Nat :=
  (s.data.map Char.utf8Size).sum

/-- `str::trim()`: the string with leading and trailing whitespace removed. -/
def trimStr (s : String) : String :=
  ⟨((s.data.dropWhile Char.isWhitespace).reverse.dropWhile Char.isWhitespace).reverse⟩

/-- The error type `LinesError(String)` of `lib.rs`. -/
structure LinesError where
  msg : String
deriving DecidableEq, Repr

/-- The supported languages (`enum Language`). -/
inductive Language where
  | Rust : Language
  | Java : Language
deriving DecidableEq, Repr

/-- The manual `impl Clone for Language`: it returns `Language::Rust`
regardless of the receiver. -/
def Language.clone : Language → Language
  | _ => Language.Rust

/-- `impl fmt::Display for Language`. -/
def Language.display : Language → String
  | Language.Rust => "Rust"
  | Language.Java => "Java"

/-- `str::to_lowercase`: lowercase the string character by character
(identical to Rust's behaviour on ASCII input). -/
def toLowerStr (s : String) : String :=
  ⟨s.data.map Char.toLower⟩

/-- `Language::from(lang: &str)`: case-insensitive parse of a language name
via `to_lowercase`. -/
def Language.fromStr (lang : String) : Except LinesError Language :=
  if toLowerStr lang = "rust" then Except.ok Language.Rust
  else if toLowerStr lang = "java" then Except.ok Language.Java
  else Except.error ⟨"Language " ++ lang ++ " not supported"⟩

/-- `Language::default_folder`: the built-in default search pattern, present
only for Rust and only when the `HOME` environment variable resolves. -/
def Language.default_folder (lang : Language) (env : String → Option String) :
    Option String :=
  match env "HOME" with
  | none => none
  | some home =>
    match lang with
    | Language.Rust => some (home ++ "/.cargo/registry/src/**/*.rs")
    | Language.Java => none

/-- `Language::env_var_folder`: the per-language environment override
(`RUST_LINES` / `JAVA_LINES`), turned into a glob pattern.  Note the source
appends `/**/*.rust` (not `.rs`) in the Rust arm. -/
def Language.env_var_folder (lang : Language) (env : String → Option String) :
    Option String :=
  match lang with
  | Language.Rust =>
    match env "RUST_LINES" with
    | some folder => some (folder ++ "/**/*.rust")
    | none => none
  | Language.Java =>
    match env "JAVA_LINES" with
    | some folder => some (folder ++ "/**/*.java")
    | none => none

/-- `Language::folder`: environment override first, then built-in default,
else nothing. -/
def Language.folder (lang : Language) (env : String → Option String) :
    Option String :=
  if (lang.env_var_folder env).isSome then lang.env_var_folder env
  else if (lang.default_folder env).isSome then lang.default_folder env
  else none

/-- `Language::get_paths`: expand the resolved folder pattern with `glob`.
The filesystem is modelled by `globFn`: `none` for a `glob` error, otherwise
the per-entry results (`none` for an entry that fails to read, mirroring
`filter_map(Result::ok)`).  Both a missing folder and a glob error fall
through to the single `LinesError`. -/
def Language.get_paths (lang : Language) (env : String → Option String)
    (globFn : String → Option (List (Option String))) :
    Except LinesError (List String) :=
  match lang.folder env with
  | some folder =>
    match globFn folder with
    | some paths => Except.ok (paths.filterMap id)
    | none => Except.error ⟨"Error getting file paths for " ++ lang.display ++ "."⟩
  | none => Except.error ⟨"Error getting file paths for " ++ lang.display ++ "."⟩

/-- `Language::filter_lines`: keep lines without `/` whose raw byte length
exceeds 10 (for Java, additionally without the substring `import`), then trim
each survivor. -/
def Language.filter_lines (lang : Language) (lines : List String) :
    List String :=
  match lang with
  | Language.Rust =>
    (lines.filter (fun l => !(containsChar l '/') && decide (10 < strLen l))).map trimStr
  | Language.Java =>
    (lines.filter (fun l =>
      !(containsChar l '/') && decide (10 < strLen l) && !(containsStr l "import"))).map trimStr

/-- `SliceRandom::choose`: `none` on an empty slice, otherwise the element at
a uniformly random index.  The random draw is modelled by the extra parameter
`k`; the chosen index is `k % lines.length`. -/
def chooseRand (lines : List String) (k : Nat) : Option String :=
  if h : lines.length = 0 then none
  else some (lines.get ⟨k % lines.length, Nat.mod_lt k (Nat.pos_of_ne_zero h)⟩)

/-- `get_random_string`: a random element of the list, or a `LinesError` when
the list is empty. -/
def get_random_string (lines : List String) (k : Nat) :
    Except LinesError String :=
  match chooseRand lines k with
  | some line => Except.ok line
  | none => Except.error ⟨"Error getting random string."⟩

/-- The line set of the repository's own unit tests (`get_lines()`). -/
def get_lines : List String :=
  ["import thing thing thing", "///", "let thing",
   "         let thing = do_this_long_thing(hello)  "]

/-- Trimming only removes characters from the two ends: the character list of
`trimStr s` is a contiguous infix of the character list of `s`. -/
theorem trimStr_data_infix_data (s : String) : (trimStr s).data <:+: s.data := by
  have h1 : s.data.dropWhile Char.isWhitespace <:+ s.data :=
    List.dropWhile_suffix _
  have h2 : (s.data.dropWhile Char.isWhitespace).reverse.dropWhile Char.isWhitespace
      <:+ (s.data.dropWhile Char.isWhitespace).reverse :=
    List.dropWhile_suffix _
  have h3 : ((s.data.dropWhile Char.isWhitespace).reverse.dropWhile Char.isWhitespace).reverse
      <+: s.data.dropWhile Char.isWhitespace := by
    rw [← List.reverse_suffix]
    simpa using h2
  have h4 := List.IsPrefix.isInfix h3
  have h5 := List.IsSuffix.isInfix h1
  exact List.IsInfix.trans h4 h5

/-- Unfolds membership in `filter_lines`: every output line is the trim of an
input line passing that language's boolean filter. -/
theorem mem_filter_lines (lang : Language) (lines : List String) (l : String)
    (h : l ∈ lang.filter_lines lines) :
    ∃ l0 ∈ lines, l = trimStr l0 ∧ containsChar l0 '/' = false ∧
      10 < strLen l0 ∧
      (lang = Language.Java → containsStr l0 "import" = false) := by
  cases lang with
  | Rust =>
    simp only [Language.filter_lines] at h
    obtain ⟨a, ha, rfl⟩ := List.mem_map.mp h
    obtain ⟨ha1, ha2⟩ := List.mem_filter.mp ha
    simp only [Bool.and_eq_true, Bool.not_eq_true', decide_eq_true_eq] at ha2
    exact ⟨a, ha1, rfl, ha2.1, ha2.2, by intro hf; cases hf⟩
  | Java =>
    simp only [Language.filter_lines] at h
    obtain ⟨a, ha, rfl⟩ := List.mem_map.mp h
    obtain ⟨ha1, ha2⟩ := List.mem_filter.mp ha
    simp only [Bool.and_eq_true, Bool.not_eq_true', decide_eq_true_eq] at ha2
    exact ⟨a, ha1, rfl, ha2.1.1, ha2.1.2, fun _ => ha2.2⟩

/-- Claim C1 counterexample: the raw line of ten spaces followed by `x` has
raw length 11, so `filter_lines` keeps it, and the returned (trimmed) line
`"x"` has trimmed length 1 ≤ 10 — refuting "every returned line has trimmed
length strictly greater than 10". -/
theorem filter_lines_short_trimmed_output :
    ∃ l ∈ Language.filter_lines Language.Rust ["          x"],
      (trimStr l).data.length ≤ 10 := by decide

/-- Claim C1 (amended): every line returned by `filter_lines` is the trim of
an input line whose RAW (untrimmed) length exceeds 10 bytes; equivalently any
input line of raw length ≤ 10 is excluded.  The length test precedes
trimming, so the returned line's own trimmed length may be ≤ 10. -/
theorem filter_lines_raw_length (lang : Language) (lines : List String)
    (l : String) (h : l ∈ lang.filter_lines lines) :
    ∃ l0 ∈ lines, 10 < strLen l0 ∧ l = trimStr l0 := by
  obtain ⟨l0, hmem, heq, _, hlen, _⟩ := mem_filter_lines lang lines l h
  exact ⟨l0, hmem, hlen, heq⟩

/-- Witness for `filter_lines_raw_length` at a concrete input. -/
theorem filter_lines_raw_length_witness :
    ∃ l0 ∈ ["aaaaaaaaaaaa"], 10 < strLen l0 ∧ "aaaaaaaaaaaa" = trimStr l0 :=
  filter_lines_raw_length Language.Rust ["aaaaaaaaaaaa"] "aaaaaaaaaaaa" (by decide)

/-- Claim C2 (code bug): with the override `RUST_LINES = "V"`, the Rust arm of
`env_var_folder` resolves to the pattern `"V/**/*.rust"`, not the conventional
`"V/**/*.rs"` the spec states (and that `default_folder` itself uses). -/
theorem env_var_folder_rust_extension :
    Language.env_var_folder Language.Rust
        (fun v => if v = "RUST_LINES" then some "V" else none) =
      some "V/**/*.rust" ∧
    (some "V/**/*.rust" : Option String) ≠ some "V/**/*.rs" := by decide

/-- Claim C3 (code bug): the manual `Clone` implementation returns
`Language::Rust` unconditionally, so cloning the Java variant yields Rust,
not an equal value. -/
theorem clone_java_not_java :
    Language.clone Language.Java = Language.Rust ∧
    Language.clone Language.Java ≠ Language.Java := by decide

/-- Claim C4: every line returned by `filter_lines` contains no `/`, and for
Java additionally contains no occurrence of the substring `"import"`. -/
theorem filter_lines_no_slash_no_import (lang : Language)
    (lines : List String) (l : String) (h : l ∈ lang.filter_lines lines) :
    containsChar l '/' = false ∧
      (lang = Language.Java → containsStr l "import" = false) := by
  obtain ⟨l0, _, rfl, hslash, _, himp⟩ := mem_filter_lines lang lines l h
  have hsub : (trimStr l0).data <:+: l0.data := trimStr_data_infix_data l0
  constructor
  · simp only [containsChar, decide_eq_false_iff_not] at hslash ⊢
    exact fun hc => hslash (hsub.sublist.subset hc)
  · intro hj
    have h0 := himp hj
    simp only [containsStr, decide_eq_false_iff_not] at h0 ⊢
    exact fun hc => h0 (hc.trans hsub)

/-- Witness for `filter_lines_no_slash_no_import` at a concrete input. -/
theorem filter_lines_no_slash_no_import_witness :
    containsChar "bbbbbbbbbbbb" '/' = false ∧
      (Language.Java = Language.Java → containsStr "bbbbbbbbbbbb" "import" = false) :=
  filter_lines_no_slash_no_import Language.Java ["bbbbbbbbbbbb"] "bbbbbbbbbbbb"
    (by decide)

/-- Claim C5: `get_random_string` errors exactly on the empty list, is the
identity draw on a singleton, and only ever returns members of its input. -/
theorem get_random_string_spec (lines : List String) (k : Nat) :
    (lines = [] → get_random_string lines k =
        Except.error ⟨"Error getting random string."⟩) ∧
    (∀ x, lines = [x] → get_random_string lines k = Except.ok x) ∧
    (∀ s, get_random_string lines k = Except.ok s → s ∈ lines) ∧
    (lines ≠ [] → ∃ s, get_random_string lines k = Except.ok s) := by
  refine ⟨fun h => ?_, fun x h => ?_, fun s h => ?_, fun h => ?_⟩
  · subst h; rfl
  · subst h; simp [get_random_string, chooseRand, Nat.mod_one]
  · by_cases hl : lines.length = 0
    · obtain rfl : lines = [] := List.length_eq_zero.mp hl
      simp [get_random_string, chooseRand] at h
    · have hk : get_random_string lines k =
          Except.ok (lines.get ⟨k % lines.length,
            Nat.mod_lt k (Nat.pos_of_ne_zero hl)⟩) := by
        simp [get_random_string, chooseRand, hl]
      rw [hk] at h
      injection h with h
      rw [← h]
      exact List.get_mem _ _ _
  · have hl : lines.length ≠ 0 := by simpa using h
    refine ⟨lines.get ⟨k % lines.length, Nat.mod_lt k (Nat.pos_of_ne_zero hl)⟩, ?_⟩
    simp [get_random_string, chooseRand, hl]

/-- Witness for `get_random_string_spec` at a concrete input. -/
theorem get_random_string_spec_witness :
    get_random_string ["a"] 0 = Except.ok "a" :=
  (get_random_string_spec ["a"] 0).2.1 "a" rfl

/-- Claim C6: folder resolution precedence — a set environment override wins
outright; otherwise Rust with `HOME` set resolves to the built-in cargo
registry pattern; Java's built-in default tier never yields a value. -/
theorem folder_precedence (env : String → Option String) :
    (∀ lang p, Language.env_var_folder lang env = some p →
        Language.folder lang env = some p) ∧
    (env "RUST_LINES" = none → ∀ h, env "HOME" = some h →
        Language.folder Language.Rust env =
          some (h ++ "/.cargo/registry/src/**/*.rs")) ∧
    (Language.default_folder Language.Java env = none) ∧
    (env "JAVA_LINES" = none → Language.folder Language.Java env = none) := by
  have hjd : Language.default_folder Language.Java env = none := by
    unfold Language.default_folder
    cases env "HOME" <;> rfl
  refine ⟨fun lang p h => ?_, fun h1 h hH => ?_, hjd, fun hj => ?_⟩
  · simp [Language.folder, h]
  · have he : Language.env_var_folder Language.Rust env = none := by
      simp [Language.env_var_folder, h1]
    simp [Language.folder, he, Language.default_folder, hH]
  · have he : Language.env_var_folder Language.Java env = none := by
      simp [Language.env_var_folder, hj]
    simp [Language.folder, he, hjd]

/-- Witness for `folder_precedence` at a concrete environment. -/
theorem folder_precedence_witness :
    Language.folder Language.Rust
        (fun v => if v = "HOME" then some "H" else none) =
      some "H/.cargo/registry/src/**/*.rs" :=
  (folder_precedence _).2.1 (by decide) "H" (by decide)

/-- Claim C7: for Rust with neither `RUST_LINES` nor `HOME` available, path
resolution fails with the no-folder-configured error value (no panic). -/
theorem get_paths_no_folder (env : String → Option String)
    (globFn : String → Option (List (Option String)))
    (h1 : env "RUST_LINES" = none) (h2 : env "HOME" = none) :
    Language.get_paths Language.Rust env globFn =
      Except.error ⟨"Error getting file paths for Rust."⟩ := by
  have hf : Language.folder Language.Rust env = none := by
    simp [Language.folder, Language.env_var_folder, Language.default_folder,
      h1, h2]
  simp [Language.get_paths, hf]
  rfl

/-- Witness for `get_paths_no_folder` at a concrete environment. -/
theorem get_paths_no_folder_witness :
    Language.get_paths Language.Rust (fun _ => none) (fun _ => some []) =
      Except.error ⟨"Error getting file paths for Rust."⟩ :=
  get_paths_no_folder (fun _ => none) (fun _ => some []) rfl rfl

/-- Claim C8: language parsing is case-insensitive over the closed set — any
string lowercasing to `"rust"` (resp. `"java"`) parses to that variant, and
every other string fails with the unsupported-language error. -/
theorem fromStr_spec (s : String) :
    (toLowerStr s = "rust" → Language.fromStr s = Except.ok Language.Rust) ∧
    (toLowerStr s = "java" → Language.fromStr s = Except.ok Language.Java) ∧
    (toLowerStr s ≠ "rust" → toLowerStr s ≠ "java" →
      Language.fromStr s =
        Except.error ⟨"Language " ++ s ++ " not supported"⟩) := by
  refine ⟨fun h => ?_, fun h => ?_, fun h1 h2 => ?_⟩ <;>
    simp_all [Language.fromStr]

/-- Witness for `fromStr_spec` at a concrete input. -/
theorem fromStr_spec_witness :
    Language.fromStr "RUST" = Except.ok Language.Rust :=
  (fromStr_spec "RUST").1 (by decide)

/-- Claim C9: the Java filter on the repository's test lines returns exactly
the single trimmed long line. -/
theorem filter_lines_java_scenario :
    Language.filter_lines Language.Java get_lines =
      ["let thing = do_this_long_thing(hello)"] := by decide

/-- Claim C10: the Rust filter on the same test lines returns exactly two
lines, the second being the trimmed long line (the import line survives). -/
theorem filter_lines_rust_scenario :
    (Language.filter_lines Language.Rust get_lines).length = 2 ∧
    (Language.filter_lines Language.Rust get_lines)[1]? =
      some "let thing = do_this_long_thing(hello)" := by decide

end CodeLines
